import Mathlib

set_option linter.unnecessarySeqFocus false
set_option linter.unusedVariables false

/-!
Shallow embedding of `zotero-bib-to-gh.py` (the Zotero bibliography → GitHub
sync script) and verification of the frozen claims about its specification.

Modelling conventions:
  * machine integers are `Int`/`Nat` (Python ints are unbounded, so no wrap);
  * the remote HTTP service is an oracle `Net : String → Nat → Attempt`
    giving the outcome of the k-th retry attempt of a GET on a URL;
  * the file system is an association list `Files` (newest write first);
  * every operation additionally returns a `Trace` of observable events
    (GET attempts, log lines, file reads/writes); wall-clock data that the
    script logs (`response.elapsed`) is not modelled, and the retry
    decorator's backoff sleeps have no observable effect in the model;
  * exceptions are `Except Err` values (`fetchError` for the retry-exhausted
    `httpx.HTTPError`, `typeError`/`valueError` for `int(...)` failures);
    `outOfFuel` is an artifact of bounding the pagination recursion and is
    excluded by the fuel hypotheses of the theorems.
-/

/-! ## Decimal text codec: Python `str` of an int and `int` of a string -/

/-- The character for a single decimal digit (`d < 10` in all uses). -/
def digitChar : Nat → Char
  | 0 => '0' | 1 => '1' | 2 => '2' | 3 => '3' | 4 => '4'
  | 5 => '5' | 6 => '6' | 7 => '7' | 8 => '8' | _ => '9'

/-- Decimal digits of `n`, most significant first; `fuel`-bounded so that it
computes by `rfl` (any `fuel > n` is enough). -/
def natToDigitsAux : Nat → Nat → List Char
  | 0, _ => []
  | fuel + 1, n =>
    if n < 10 then [digitChar n]
    else natToDigitsAux fuel (n / 10) ++ [digitChar (n % 10)]

def natToDigits (n : Nat) : List Char := natToDigitsAux (n + 1) n

/-- Python `str` of a natural number. -/
def strNat (n : Nat) : String := String.mk (natToDigits n)

/-- Python `str` of an integer: canonical decimal, `-` sign for negatives. -/
def strInt (n : Int) : String :=
  if n < 0 then String.mk ('-' :: natToDigits n.natAbs)
  else String.mk (natToDigits n.natAbs)

def digitVal (c : Char) : Nat := c.toNat - 48

def isDigitC (c : Char) : Bool := decide (48 ≤ c.toNat) && decide (c.toNat ≤ 57)

def natOfDigitsGo : Nat → List Char → Option Nat
  | acc, [] => some acc
  | acc, c :: cs =>
    if isDigitC c then natOfDigitsGo (acc * 10 + digitVal c) cs else none

/-- Value of a nonempty all-digit string; `none` on anything else. -/
def natOfDigits : List Char → Option Nat
  | [] => none
  | c :: cs => natOfDigitsGo 0 (c :: cs)

/-- The whitespace characters stripped by Python `int(...)` (ASCII subset). -/
def isPySpace (c : Char) : Bool :=
  c = ' ' || c = '\t' || c = '\n' || c = '\r' || c = '\x0b' || c = '\x0c'

def stripWs (cs : List Char) : List Char :=
  ((cs.dropWhile isPySpace).reverse.dropWhile isPySpace).reverse

def pyIntCore : List Char → Option Int
  | [] => none
  | c :: rest =>
    if c = '-' then (natOfDigits rest).map (fun m => -(Int.ofNat m))
    else if c = '+' then (natOfDigits rest).map Int.ofNat
    else (natOfDigits (c :: rest)).map Int.ofNat

/-- Python `int(s)`: strip surrounding whitespace, optional sign, digits;
`none` models the `ValueError`. -/
def pyInt (s : String) : Option Int := pyIntCore (stripWs s.data)

/-- Characters of the first line of a file, including a trailing newline,
as returned by `file.readline()`. -/
def takeLine : List Char → List Char
  | [] => []
  | c :: cs => if c = '\n' then ['\n'] else c :: takeLine cs

def firstLine (s : String) : String := String.mk (takeLine s.data)

/-! ## Data model of the sync script -/

/-- One HTTP response as the script observes it: status code, the
`last-modified-version` header (absent ⇒ `none`), the parsed `Link`
header's `rel="next"` target URL (absent ⇒ `none`), and the text body. -/
structure Response where
  status_code : Nat
  lastModifiedVersion : Option String
  linkNext : Option String
  text : String
deriving Repr, DecidableEq

/-- Outcome of one GET attempt on the wire: a transport-level failure
(`httpx.TransportError` etc.) or a delivered response. -/
inductive Attempt where
  | transportError
  | response (r : Response)
deriving Repr, DecidableEq

/-- The remote service: for a URL, the outcome of the k-th retry attempt
within one `fetch_url` call. A deterministic remote ignores `k`. -/
def Net := String → Nat → Attempt

/-- Result of `fetch_url`: a response, or the `httpx.HTTPError` that the
retry decorator re-raises once attempts are exhausted. -/
inductive FetchOutcome where
  | ok (r : Response)
  | httpError
deriving Repr, DecidableEq

/-- Observable events of a run. -/
inductive Ev where
  | get (url : String)
  | logInfo (msg : String)
  | logError (msg : String)
  | fileRead (name : String)
  | fileWrite (name : String) (content : String)
deriving Repr, DecidableEq

abbrev Trace := List Ev

/-- The `bibliography/` directory: an association list mapping file names to
contents; the most recent write of a name is the first entry with that name. -/
abbrev Files := List (String × String)

/-- `open(name, "w")` followed by `write(content)`. -/
def writeFileS (fs : Files) (name content : String) : Files := (name, content) :: fs

/-- Exceptions of the script. `outOfFuel` is only a model artifact bounding
the pagination recursion; no theorem's conclusion relies on it. -/
inductive Err where
  | fetchError
  | typeError
  | valueError
  | outOfFuel
deriving Repr, DecidableEq

/-- One attempt of `fetch_url`'s body: `client.get` followed by
`raise_for_status()`, which raises for every status ≥ 400. -/
def attemptOutcome (net : Net) (url : String) (k : Nat) : FetchOutcome :=
  match net url k with
  | .transportError => .httpError
  | .response r => if 400 ≤ r.status_code then .httpError else .ok r

/-- Events of one attempt: the GET is always made; the success log line
(line 14; the `elapsed` figure is wall-clock data, not modelled) only runs
when `raise_for_status` did not raise. -/
def attemptTrace (net : Net) (url : String) (k : Nat) : Trace :=
  match attemptOutcome net url k with
  | .ok r => [.get url, .logInfo (url ++ " returned " ++ strNat r.status_code)]
  | .httpError => [.get url]

/-- The `stamina.retry(on=httpx.HTTPError, attempts=n)` loop around one GET:
stop at the first success, re-raise after `n` failed attempts. -/
def retryFetch (net : Net) (url : String) : Nat → Nat → FetchOutcome × Trace
  | 0, _ => (.httpError, [])
  | n + 1, k =>
    match attemptOutcome net url k with
    | .ok r => (.ok r, attemptTrace net url k)
    | .httpError =>
      let rest := retryFetch net url n (k + 1)
      (rest.1, attemptTrace net url k ++ rest.2)

/-- `fetch_url` (source lines 10–15): retried GET with `attempts=3`. -/
def fetch_url (net : Net) (url : String) : FetchOutcome × Trace :=
  retryFetch net url 3 0

/-- `follow_and_extract` (source lines 18–24): fetch a page; if its parsed
links contain a `"next"` relation, recurse on that URL and append, else
return this page's body. `fuel` bounds the recursion depth in the model. -/
def follow_and_extract (net : Net) : Nat → String → Except Err String × Trace
  | 0, _ => (.error .outOfFuel, [])
  | fuel + 1, url =>
    match fetch_url net url with
    | (.httpError, t) => (.error .fetchError, t)
    | (.ok r, t) =>
      match r.linkNext with
      | none => (.ok r.text, t)
      | some nextUrl =>
        match follow_and_extract net fuel nextUrl with
        | (.ok restText, t2) => (.ok (r.text ++ restText), t ++ t2)
        | (.error e, t2) => (.error e, t ++ t2)

/-- `f"bibliography/{file_name}"`, the content artifact path. -/
def contentName (file_name : String) : String := "bibliography/" ++ file_name

/-- `f"bibliography/{file_name}-last-modified-version"`, the marker path. -/
def markerName (file_name : String) : String :=
  contentName file_name ++ "-last-modified-version"

/-- The version-cache read (source lines 36–43): open the marker file,
`int(readline())`; `FileNotFoundError` or `ValueError` yields `0`.
Returns the cached version and the events of the read. -/
def readCachedVersionT (fs : Files) (marker : String) : Int × Trace :=
  match fs.lookup marker with
  | none => (0, [.fileRead marker])
  | some s =>
    match pyInt (firstLine s) with
    | none => (0, [.fileRead marker])
    | some n => (n, [.fileRead marker, .logInfo ("last-modified-version is " ++ strInt n)])

/-- `download_and_write_bib` (source lines 27–69): probe, (dead) 403 check,
cache read, header parse, version compare, paginated fetch, content write,
marker write. Returns the final files, the event trace, and the outcome
(`.ok ()` covers both early returns and full success; `.error` is an
uncaught exception). -/
def download_and_write_bib (net : Net) (fuel : Nat) (fs : Files)
    (zotero_url : String) (file_name : String) : Files × Trace × Except Err Unit :=
  match fetch_url net zotero_url with
  | (.httpError, t) => (fs, t, .error .fetchError)
  | (.ok conn, t) =>
    if conn.status_code = 403 then
      (fs, t ++ [.logError "Access to library not granted."], .ok ())
    else
      match conn.lastModifiedVersion with
      | none =>
        (fs, t ++ (readCachedVersionT fs (markerName file_name)).2, .error .typeError)
      | some vs =>
        match pyInt vs with
        | none =>
          (fs, t ++ (readCachedVersionT fs (markerName file_name)).2, .error .valueError)
        | some latest =>
          if (readCachedVersionT fs (markerName file_name)).1 = latest then
            (fs,
             t ++ (readCachedVersionT fs (markerName file_name)).2 ++
               [.logInfo ("online version " ++ strInt latest ++
                 " is not different from cache " ++
                 strInt (readCachedVersionT fs (markerName file_name)).1 ++ ". Done!")],
             .ok ())
          else
            match follow_and_extract net fuel zotero_url with
            | (.error e, t2) =>
              (fs,
               t ++ (readCachedVersionT fs (markerName file_name)).2 ++
                 [.logInfo ("online version " ++ strInt latest ++
                   " is different from cache " ++
                   strInt (readCachedVersionT fs (markerName file_name)).1 ++
                   ". Fetching data...")] ++ t2,
               .error e)
            | (.ok body, t2) =>
              (writeFileS (writeFileS fs (contentName file_name) body)
                 (markerName file_name) (strInt latest),
               t ++ (readCachedVersionT fs (markerName file_name)).2 ++
                 [.logInfo ("online version " ++ strInt latest ++
                   " is different from cache " ++
                   strInt (readCachedVersionT fs (markerName file_name)).1 ++
                   ". Fetching data...")] ++ t2 ++
                 [.fileWrite (contentName file_name) body,
                  .logInfo (file_name ++ " updated"),
                  .fileWrite (markerName file_name) (strInt latest),
                  .logInfo ("last-modified-version updated to " ++ strInt latest)],
               .ok ())

/-- The two environment variables the script requires. -/
structure Env where
  zotero_user_id : Option String
  zotero_bearer_token : Option String

/-- The per-group loop of `main` (source lines 101–107) followed by the final
log line: groups whose parsed `id` is absent or falsy (`0`) are skipped; an
uncaught exception from a group's sync aborts the rest of the loop. -/
def syncGroups (net : Net) (fuel : Nat) : Files → Trace → List (Option Nat) →
    Files × Trace × Except Err Unit
  | fs, tr, [] => (fs, tr ++ [.logInfo "Done!"], .ok ())
  | fs, tr, g :: gs =>
    match g with
    | none => syncGroups net fuel fs tr gs
    | some gid =>
      if gid = 0 then syncGroups net fuel fs tr gs
      else
        match download_and_write_bib net fuel fs
            ("https://api.zotero.org/groups/" ++ strNat gid ++ "/items?v=3&format=biblatex")
            (strNat gid ++ ".bib") with
        | (fs', t', .ok ()) => syncGroups net fuel fs' (tr ++ t') gs
        | (fs', t', .error e) => (fs', tr ++ t', .error e)

/-- `main` (source lines 72–109). `parseJson` abstracts
`groups_response.json()` followed by `group.get("id")` for each element
(the JSON decoding is library behaviour external to the script). -/
def mainRun (parseJson : String → List (Option Nat)) (net : Net) (fuel : Nat)
    (env : Env) (fs : Files) : Files × Trace × Except Err Unit :=
  match env.zotero_user_id with
  | none => (fs, [.logError "ZOTERO_USER_ID not set in GitHub secrets"], .ok ())
  | some uid =>
    match env.zotero_bearer_token with
    | none => (fs, [.logError "ZOTERO_BEARER_TOKEN not set in GitHub secrets"], .ok ())
    | some _tok =>
      match download_and_write_bib net fuel fs
          ("https://api.zotero.org/users/" ++ uid ++ "/items?v=3&format=biblatex")
          "zotero.bib" with
      | (fs1, t1, .error e) => (fs1, t1, .error e)
      | (fs1, t1, .ok ()) =>
        match fetch_url net ("https://api.zotero.org/users/" ++ uid ++ "/groups/") with
        | (.httpError, tg) =>
          (fs1, t1 ++ [.logInfo "Downloading all groups!"] ++ tg, .error .fetchError)
        | (.ok gr, tg) =>
          syncGroups net fuel fs1 (t1 ++ [.logInfo "Downloading all groups!"] ++ tg)
            (parseJson gr.text)

/-! ## Observables over traces and files -/

def isGetEv : Ev → Bool
  | .get _ => true
  | _ => false

def isWriteEv : Ev → Bool
  | .fileWrite _ _ => true
  | _ => false

/-- Does the event write the file named `m`? -/
def writesTo (m : String) : Ev → Bool
  | .fileWrite n _ => n == m
  | _ => false

/-- Number of GET attempts in a trace. -/
def countGets : Trace → Nat
  | [] => 0
  | .get _ :: t => countGets t + 1
  | _ :: t => countGets t

/-- Replay the file writes of a trace onto a file system: the durable effect
of a run that aborts after exactly this prefix of events. -/
def applyWrites : Files → Trace → Files
  | fs, [] => fs
  | fs, .fileWrite n c :: t => applyWrites (writeFileS fs n c) t
  | fs, _ :: t => applyWrites fs t

/-! ## A remote serving a linked chain of pages -/

/-- One page of a paginated resource: its URL and its body text. -/
structure Page where
  url : String
  body : String
deriving Repr, DecidableEq

/-- Find the page with the given URL and the URL of the page linked after it. -/
def findPage : List Page → String → Option (Page × Option String)
  | [], _ => none
  | p :: rest, u =>
    if p.url = u then some (p, rest.head?.map Page.url)
    else findPage rest u

/-- A reliable remote serving the linked chain `pages`: every page answers
status 200 on the first attempt, carries version header `v`, links to the
next page of the chain, and returns its own body. -/
def chainNet (pages : List Page) (v : String) : Net := fun u _ =>
  match findPage pages u with
  | some (p, nxt) => .response ⟨200, some v, nxt, p.body⟩
  | none => .transportError

/-- Concatenation of the page bodies in chain order, with no separator. -/
def concatBodies : List Page → String
  | [] => ""
  | p :: rest => p.body ++ concatBodies rest

/-- `pages` resolves every page of `suffix` to itself and to the correct
next-link. -/
def ChainOK (pages : List Page) : List Page → Prop
  | [] => True
  | p :: rest => findPage pages p.url = some (p, rest.head?.map Page.url) ∧ ChainOK pages rest

/-! ## Concrete fixtures used by the witnesses -/

/-- A remote whose first two attempts fail on the wire and whose third
attempt succeeds. -/
def netFlaky : Net := fun _ k =>
  if k < 2 then .transportError else .response ⟨200, some "5", none, "ok"⟩

/-- A remote that always answers 403. -/
def net403 : Net := fun _ _ => .response ⟨403, some "5", none, "denied"⟩

/-- A reliable single-page remote with version header `v` and body `body`. -/
def netV (v body : String) : Net := fun _ _ => .response ⟨200, some v, none, body⟩

/-- A reliable remote whose responses carry no `last-modified-version`. -/
def netNoHeader : Net := fun _ _ => .response ⟨200, none, none, "b"⟩

/-- The spec's example chain: three pages with bodies `A`, `B`, `C`. -/
def pages3 : List Page := [⟨"u1", "A"⟩, ⟨"u2", "B"⟩, ⟨"u3", "C"⟩]

/-- A cache directory holding marker `7` for the default output. -/
def fs7 : Files := [("bibliography/zotero.bib-last-modified-version", "7")]

/-- A cache directory holding marker `12` for the default output. -/
def fs12 : Files := [("bibliography/zotero.bib-last-modified-version", "12")]

/-! ### Round-trip lemmas for the codec -/

theorem digitChar_spec : ∀ d < 10, isDigitC (digitChar d) = true ∧ digitVal (digitChar d) = d := by
  decide

theorem natToDigitsAux_ne_nil (fuel n : Nat) (h : n < fuel) :
    natToDigitsAux fuel n ≠ [] := by
  cases fuel with
  | zero => omega
  | succ f =>
    unfold natToDigitsAux
    split
    · simp
    · simp

theorem natToDigitsAux_digits (fuel : Nat) :
    ∀ n, n < fuel → ∀ c ∈ natToDigitsAux fuel n, isDigitC c = true := by
  induction fuel with
  | zero => intro n h; omega
  | succ f ih =>
    intro n h c hc
    unfold natToDigitsAux at hc
    split at hc
    · rw [List.mem_singleton] at hc
      exact hc ▸ (digitChar_spec n (by omega)).1
    · rcases List.mem_append.1 hc with hc | hc
      · exact ih (n / 10) (by omega) c hc
      · rw [List.mem_singleton] at hc
        exact hc ▸ (digitChar_spec (n % 10) (by omega)).1

theorem natToDigits_digits (n : Nat) : ∀ c ∈ natToDigits n, isDigitC c = true :=
  natToDigitsAux_digits (n + 1) n (Nat.lt_succ_self n)

theorem natOfDigitsGo_append (acc : Nat) (xs ys : List Char) :
    natOfDigitsGo acc (xs ++ ys) =
      (natOfDigitsGo acc xs).bind (fun m => natOfDigitsGo m ys) := by
  induction xs generalizing acc with
  | nil => rfl
  | cons c cs ih =>
    simp only [List.cons_append, natOfDigitsGo]
    split
    · exact ih _
    · rfl

theorem natOfDigitsGo_aux (fuel : Nat) :
    ∀ n acc, n < fuel → natOfDigitsGo acc (natToDigitsAux fuel n) = some (acc * 10 ^ (natToDigitsAux fuel n).length + n) := by
  induction fuel with
  | zero => intro n acc h; omega
  | succ f ih =>
    intro n acc h
    unfold natToDigitsAux
    split
    · rename_i h10
      have hd := digitChar_spec n h10
      simp [natOfDigitsGo, hd.1, hd.2, Nat.pow_succ]
    · rename_i h10
      rw [natOfDigitsGo_append]
      have hlt : n / 10 < f := by omega
      rw [ih (n / 10) acc hlt]
      have hd := digitChar_spec (n % 10) (by omega)
      simp only [Option.some_bind, natOfDigitsGo, hd.1, if_true, hd.2,
        List.length_append, List.length_cons, List.length_nil, Nat.zero_add]
      congr 1
      rw [pow_succ]
      have hmul : acc * (10 ^ (natToDigitsAux f (n / 10)).length * 10) =
          acc * 10 ^ (natToDigitsAux f (n / 10)).length * 10 := by ring
      rw [hmul]
      omega

theorem natOfDigits_natToDigits (n : Nat) : natOfDigits (natToDigits n) = some n := by
  have hne := natToDigitsAux_ne_nil (n + 1) n (Nat.lt_succ_self n)
  have h := natOfDigitsGo_aux (n + 1) n 0 (Nat.lt_succ_self n)
  unfold natToDigits
  rcases hd : natToDigitsAux (n + 1) n with _ | ⟨c, cs⟩
  · exact absurd hd hne
  · rw [hd] at h
    simpa [natOfDigits] using h

theorem digit_not_space {c : Char} (h : isDigitC c = true) : isPySpace c = false := by
  simp only [isDigitC, Bool.and_eq_true, decide_eq_true_eq] at h
  simp only [isPySpace, Bool.or_eq_false_iff, decide_eq_false_iff_not]
  refine ⟨⟨⟨⟨⟨?_, ?_⟩, ?_⟩, ?_⟩, ?_⟩, ?_⟩ <;>
    (intro he; subst he; revert h; decide)

theorem digit_not_minus {c : Char} (h : isDigitC c = true) : c ≠ '-' := by
  intro he; subst he; revert h; decide

theorem digit_not_plus {c : Char} (h : isDigitC c = true) : c ≠ '+' := by
  intro he; subst he; revert h; decide

theorem digit_not_newline {c : Char} (h : isDigitC c = true) : c ≠ '\n' := by
  intro he; subst he; revert h; decide

theorem dropWhile_eq_self_of_all {p : Char → Bool} :
    ∀ cs : List Char, (∀ c ∈ cs, p c = false) → cs.dropWhile p = cs := by
  intro cs h
  cases cs with
  | nil => rfl
  | cons c cs' =>
    rw [List.dropWhile_cons, h c (List.mem_cons_self c cs')]
    simp

theorem stripWs_eq_self_of_all (cs : List Char) (h : ∀ c ∈ cs, isPySpace c = false) :
    stripWs cs = cs := by
  unfold stripWs
  rw [dropWhile_eq_self_of_all cs h]
  rw [dropWhile_eq_self_of_all cs.reverse (by intro c hc; exact h c (List.mem_reverse.1 hc))]
  exact List.reverse_reverse cs

theorem takeLine_eq_self_of_no_newline :
    ∀ cs : List Char, (∀ c ∈ cs, c ≠ '\n') → takeLine cs = cs := by
  intro cs h
  induction cs with
  | nil => rfl
  | cons c cs' ih =>
    unfold takeLine
    rw [if_neg (h c (List.mem_cons_self c cs'))]
    rw [ih (fun c' hc' => h c' (List.mem_cons_of_mem c hc'))]

theorem strInt_data_nonneg {n : Int} (h : ¬ n < 0) :
    (strInt n).data = natToDigits n.natAbs := by
  rw [strInt, if_neg h]

theorem strInt_data_neg {n : Int} (h : n < 0) :
    (strInt n).data = '-' :: natToDigits n.natAbs := by
  rw [strInt, if_pos h]

theorem strInt_no_newline (n : Int) : ∀ c ∈ (strInt n).data, c ≠ '\n' := by
  intro c hc
  by_cases h : n < 0
  · rw [strInt_data_neg h] at hc
    rcases List.mem_cons.1 hc with hc | hc
    · subst hc; decide
    · exact digit_not_newline (natToDigits_digits _ c hc)
  · rw [strInt_data_nonneg h] at hc
    exact digit_not_newline (natToDigits_digits _ c hc)

/-- Reading back the first line of a freshly written marker is the marker. -/
theorem firstLine_strInt (n : Int) : firstLine (strInt n) = strInt n := by
  unfold firstLine
  rw [takeLine_eq_self_of_no_newline _ (strInt_no_newline n)]

theorem stripWs_strInt (n : Int) : stripWs (strInt n).data = (strInt n).data := by
  apply stripWs_eq_self_of_all
  intro c hc
  by_cases h : n < 0
  · rw [strInt_data_neg h] at hc
    rcases List.mem_cons.1 hc with hc | hc
    · subst hc; decide
    · exact digit_not_space (natToDigits_digits _ c hc)
  · rw [strInt_data_nonneg h] at hc
    exact digit_not_space (natToDigits_digits _ c hc)

/-- Python round trip: `int(str(n)) = n` for every integer `n`. -/
theorem pyInt_strInt (n : Int) : pyInt (strInt n) = some n := by
  unfold pyInt
  rw [stripWs_strInt]
  by_cases h : n < 0
  · rw [strInt_data_neg h]
    simp only [pyIntCore]
    rw [if_pos trivial, natOfDigits_natToDigits]
    simp only [Option.map]
    congr 1
    simp only [Int.ofNat_eq_natCast]
    omega
  · rw [strInt_data_nonneg h]
    have hne := natToDigitsAux_ne_nil (n.natAbs + 1) n.natAbs (Nat.lt_succ_self _)
    rcases hd : natToDigits n.natAbs with _ | ⟨c, cs⟩
    · exact absurd hd hne
    · have hdig : isDigitC c = true := by
        apply natToDigits_digits n.natAbs
        rw [hd]; exact List.mem_cons_self c cs
      simp only [pyIntCore]
      rw [if_neg (digit_not_minus hdig), if_neg (digit_not_plus hdig), ← hd,
        natOfDigits_natToDigits]
      simp only [Option.map]
      congr 1
      simp only [Int.ofNat_eq_natCast]
      omega

/-! ## Basic trace and file lemmas -/

theorem countGets_append : ∀ t1 t2 : Trace, countGets (t1 ++ t2) = countGets t1 + countGets t2 := by
  intro t1 t2
  induction t1 with
  | nil => simp [countGets]
  | cons e t ih =>
    cases e <;> simp [countGets, ih] <;> omega

theorem writesTo_eq_false_of_not_write {e : Ev} (h : isWriteEv e = false) (m : String) :
    writesTo m e = false := by
  cases e <;> simp [writesTo] <;> simp [isWriteEv] at h

theorem applyWrites_lookup (m : String) :
    ∀ (p : Trace) (fs : Files), (∀ e ∈ p, writesTo m e = false) →
      (applyWrites fs p).lookup m = fs.lookup m := by
  intro p
  induction p with
  | nil => intro fs _; rfl
  | cons e p' ih =>
    intro fs h
    cases e with
    | fileWrite n c =>
      have hn : (n == m) = false := h (.fileWrite n c) (List.mem_cons_self _ _)
      have hn' : (m == n) = false :=
        beq_eq_false_iff_ne.2 (fun hmn => (beq_eq_false_iff_ne.1 hn) hmn.symm)
      rw [show applyWrites fs (.fileWrite n c :: p') = applyWrites (writeFileS fs n c) p' from rfl]
      rw [ih (writeFileS fs n c) (fun e he => h e (List.mem_cons_of_mem _ he))]
      simp [writeFileS, List.lookup, hn']
    | get u => exact ih fs (fun e he => h e (List.mem_cons_of_mem _ he))
    | logInfo s => exact ih fs (fun e he => h e (List.mem_cons_of_mem _ he))
    | logError s => exact ih fs (fun e he => h e (List.mem_cons_of_mem _ he))
    | fileRead s => exact ih fs (fun e he => h e (List.mem_cons_of_mem _ he))

theorem attemptTrace_no_write (net : Net) (url : String) (k : Nat) :
    ∀ e ∈ attemptTrace net url k, isWriteEv e = false := by
  intro e he
  unfold attemptTrace at he
  rcases h : attemptOutcome net url k with r | _ <;> rw [h] at he <;>
    simp at he
  · rcases he with he | he <;> subst he <;> rfl
  · subst he; rfl

theorem retryFetch_no_write (net : Net) (url : String) :
    ∀ n k, ∀ e ∈ (retryFetch net url n k).2, isWriteEv e = false := by
  intro n
  induction n with
  | zero => intro k e he; simp [retryFetch] at he
  | succ n ih =>
    intro k e he
    unfold retryFetch at he
    rcases h : attemptOutcome net url k with r | _ <;> rw [h] at he <;> simp at he
    · exact attemptTrace_no_write net url k e he
    · rcases he with he | he
      · exact attemptTrace_no_write net url k e he
      · exact ih (k + 1) e he

theorem fetch_url_no_write (net : Net) (url : String) :
    ∀ e ∈ (fetch_url net url).2, isWriteEv e = false :=
  retryFetch_no_write net url 3 0

theorem follow_no_write (net : Net) :
    ∀ fuel url, ∀ e ∈ (follow_and_extract net fuel url).2, isWriteEv e = false := by
  intro fuel
  induction fuel with
  | zero => intro url e he; simp [follow_and_extract] at he
  | succ fuel ih =>
    intro url e he
    unfold follow_and_extract at he
    rcases hf : fetch_url net url with ⟨o, t⟩
    rw [hf] at he
    have htf : ∀ e ∈ t, isWriteEv e = false := by
      intro e' he'
      have := fetch_url_no_write net url
      rw [hf] at this
      exact this e' he'
    cases o with
    | httpError => exact htf e he
    | ok r =>
      dsimp only at he
      cases hl : r.linkNext with
      | none => rw [hl] at he; exact htf e he
      | some nextUrl =>
        rw [hl] at he
        dsimp only at he
        rcases hrec : follow_and_extract net fuel nextUrl with ⟨o2, t2⟩
        rw [hrec] at he
        have ht2 : ∀ e ∈ t2, isWriteEv e = false := by
          intro e' he'
          have := ih nextUrl
          rw [hrec] at this
          exact this e' he'
        cases o2 <;> dsimp only at he <;> rcases List.mem_append.1 he with he | he
        · exact htf e he
        · exact ht2 e he
        · exact htf e he
        · exact ht2 e he

theorem readCachedVersionT_no_write (fs : Files) (m : String) :
    ∀ e ∈ (readCachedVersionT fs m).2, isWriteEv e = false := by
  intro e he
  unfold readCachedVersionT at he
  rcases h : fs.lookup m with _ | s <;> rw [h] at he <;> simp at he
  · subst he; rfl
  · rcases hp : pyInt (firstLine s) with _ | n <;> rw [hp] at he <;> simp at he
    · subst he; rfl
    · rcases he with he | he <;> subst he <;> rfl

theorem readCachedVersionT_no_get (fs : Files) (m : String) :
    countGets (readCachedVersionT fs m).2 = 0 := by
  rcases h1 : fs.lookup m with _ | s
  · simp [readCachedVersionT, h1, countGets]
  · rcases h2 : pyInt (firstLine s) with _ | n
    · simp [readCachedVersionT, h1, h2, countGets]
    · simp [readCachedVersionT, h1, h2, countGets]

theorem attemptOutcome_ok_status (net : Net) (url : String) (k : Nat) (r : Response)
    (h : attemptOutcome net url k = .ok r) : r.status_code < 400 := by
  unfold attemptOutcome at h
  rcases hnet : net url k with _ | resp <;> rw [hnet] at h <;> dsimp only at h
  · cases h
  · by_cases hs : 400 ≤ resp.status_code
    · rw [if_pos hs] at h
      cases h
    · rw [if_neg hs] at h
      cases h
      omega

theorem retryFetch_ok_status (net : Net) (url : String) :
    ∀ n k r, (retryFetch net url n k).1 = .ok r → r.status_code < 400 := by
  intro n
  induction n with
  | zero => intro k r h; exact absurd h (by simp [retryFetch])
  | succ n ih =>
    intro k r h
    unfold retryFetch at h
    rcases h0 : attemptOutcome net url k with r0 | _ <;> rw [h0] at h
    · cases h
      exact attemptOutcome_ok_status net url k r h0
    · exact ih (k + 1) r h

/-- The fetcher never returns an error-status response: `raise_for_status`
turns every status ≥ 400 (403 included) into an exception that the retry
decorator ultimately re-raises. Hence the orchestrator's 403 branch is
unreachable. -/
theorem fetch_url_ok_status (net : Net) (url : String) (r : Response) (t : Trace)
    (h : fetch_url net url = (.ok r, t)) : r.status_code < 400 := by
  have h1 : (fetch_url net url).1 = .ok r := by rw [h]
  exact retryFetch_ok_status net url 3 0 r h1

theorem fetch_url_ok_not_403 (net : Net) (url : String) (r : Response) (t : Trace)
    (h : fetch_url net url = (.ok r, t)) : ¬ r.status_code = 403 := by
  have := fetch_url_ok_status net url r t h
  omega

/-- The marker file and the content file of one resource are distinct paths. -/
theorem markerName_ne_contentName (fn : String) : markerName fn ≠ contentName fn := by
  intro h
  have hl := congrArg String.length h
  rw [markerName, String.length_append] at hl
  have h22 : ("-last-modified-version" : String).length = 22 := rfl
  rw [h22] at hl
  omega

theorem markerName_beq_contentName (fn : String) :
    ((markerName fn) == (contentName fn)) = false :=
  beq_eq_false_iff_ne.2 (markerName_ne_contentName fn)

theorem contentName_beq_markerName (fn : String) :
    ((contentName fn) == (markerName fn)) = false :=
  beq_eq_false_iff_ne.2 (fun h => markerName_ne_contentName fn h.symm)

/-! ## Characterization of the retried fetch -/

theorem countGets_attemptTrace (net : Net) (url : String) (k : Nat) :
    countGets (attemptTrace net url k) = 1 := by
  unfold attemptTrace
  rcases h : attemptOutcome net url k with r | _ <;> simp [countGets]

theorem fetch_url_step0 (net : Net) (url : String) :
    fetch_url net url =
      match attemptOutcome net url 0 with
      | .ok r => (.ok r, attemptTrace net url 0)
      | .httpError =>
        ((retryFetch net url 2 1).1, attemptTrace net url 0 ++ (retryFetch net url 2 1).2) := rfl

theorem fetch_url_step1 (net : Net) (url : String) :
    retryFetch net url 2 1 =
      match attemptOutcome net url 1 with
      | .ok r => (.ok r, attemptTrace net url 1)
      | .httpError =>
        ((retryFetch net url 1 2).1, attemptTrace net url 1 ++ (retryFetch net url 1 2).2) := rfl

theorem fetch_url_step2 (net : Net) (url : String) :
    retryFetch net url 1 2 =
      match attemptOutcome net url 2 with
      | .ok r => (.ok r, attemptTrace net url 2)
      | .httpError =>
        ((retryFetch net url 0 3).1, attemptTrace net url 2 ++ (retryFetch net url 0 3).2) := rfl

theorem fetch_url_case0 (net : Net) (url : String) (r0 : Response)
    (h0 : attemptOutcome net url 0 = .ok r0) :
    fetch_url net url = (.ok r0, attemptTrace net url 0) := by
  rw [fetch_url_step0, h0]

theorem fetch_url_case1 (net : Net) (url : String) (r1 : Response)
    (h0 : attemptOutcome net url 0 = .httpError)
    (h1 : attemptOutcome net url 1 = .ok r1) :
    fetch_url net url = (.ok r1, attemptTrace net url 0 ++ attemptTrace net url 1) := by
  rw [fetch_url_step0, h0, fetch_url_step1, h1]

theorem fetch_url_case2 (net : Net) (url : String) (r2 : Response)
    (h0 : attemptOutcome net url 0 = .httpError)
    (h1 : attemptOutcome net url 1 = .httpError)
    (h2 : attemptOutcome net url 2 = .ok r2) :
    fetch_url net url =
      (.ok r2, attemptTrace net url 0 ++ (attemptTrace net url 1 ++ attemptTrace net url 2)) := by
  rw [fetch_url_step0, h0, fetch_url_step1, h1, fetch_url_step2, h2]

theorem fetch_url_case3 (net : Net) (url : String)
    (h0 : attemptOutcome net url 0 = .httpError)
    (h1 : attemptOutcome net url 1 = .httpError)
    (h2 : attemptOutcome net url 2 = .httpError) :
    fetch_url net url =
      (.httpError,
       attemptTrace net url 0 ++ (attemptTrace net url 1 ++ (attemptTrace net url 2 ++ []))) := by
  rw [fetch_url_step0, h0, fetch_url_step1, h1, fetch_url_step2, h2]
  rfl

/-! ## Branch equations for the orchestrator -/

theorem download_fetch_err (net : Net) (fuel : Nat) (fs : Files) (url fn : String)
    (t : Trace) (hf : fetch_url net url = (.httpError, t)) :
    download_and_write_bib net fuel fs url fn = (fs, t, .error .fetchError) := by
  unfold download_and_write_bib
  rw [hf]

theorem download_403 (net : Net) (fuel : Nat) (fs : Files) (url fn : String)
    (conn : Response) (t : Trace) (hf : fetch_url net url = (.ok conn, t))
    (h403 : conn.status_code = 403) :
    download_and_write_bib net fuel fs url fn =
      (fs, t ++ [.logError "Access to library not granted."], .ok ()) := by
  unfold download_and_write_bib
  rw [hf]
  dsimp only
  rw [if_pos h403]

theorem download_no_header (net : Net) (fuel : Nat) (fs : Files) (url fn : String)
    (conn : Response) (t : Trace) (hf : fetch_url net url = (.ok conn, t))
    (h403 : ¬ conn.status_code = 403) (hlm : conn.lastModifiedVersion = none) :
    download_and_write_bib net fuel fs url fn =
      (fs, t ++ (readCachedVersionT fs (markerName fn)).2, .error .typeError) := by
  unfold download_and_write_bib
  rw [hf]
  dsimp only
  rw [if_neg h403, hlm]

theorem download_bad_header (net : Net) (fuel : Nat) (fs : Files) (url fn : String)
    (conn : Response) (t : Trace) (vs : String) (hf : fetch_url net url = (.ok conn, t))
    (h403 : ¬ conn.status_code = 403) (hlm : conn.lastModifiedVersion = some vs)
    (hpi : pyInt vs = none) :
    download_and_write_bib net fuel fs url fn =
      (fs, t ++ (readCachedVersionT fs (markerName fn)).2, .error .valueError) := by
  unfold download_and_write_bib
  rw [hf]
  dsimp only
  rw [if_neg h403, hlm]
  dsimp only
  rw [hpi]

theorem download_up_to_date (net : Net) (fuel : Nat) (fs : Files) (url fn : String)
    (conn : Response) (t : Trace) (vs : String) (latest : Int)
    (hf : fetch_url net url = (.ok conn, t))
    (h403 : ¬ conn.status_code = 403) (hlm : conn.lastModifiedVersion = some vs)
    (hpi : pyInt vs = some latest)
    (heq : (readCachedVersionT fs (markerName fn)).1 = latest) :
    download_and_write_bib net fuel fs url fn =
      (fs,
       t ++ (readCachedVersionT fs (markerName fn)).2 ++
         [.logInfo ("online version " ++ strInt latest ++ " is not different from cache " ++
           strInt (readCachedVersionT fs (markerName fn)).1 ++ ". Done!")],
       .ok ()) := by
  unfold download_and_write_bib
  rw [hf]
  dsimp only
  rw [if_neg h403, hlm]
  dsimp only
  rw [hpi]
  dsimp only
  rw [if_pos heq]

theorem download_follow_err (net : Net) (fuel : Nat) (fs : Files) (url fn : String)
    (conn : Response) (t : Trace) (vs : String) (latest : Int) (e : Err) (t2 : Trace)
    (hf : fetch_url net url = (.ok conn, t))
    (h403 : ¬ conn.status_code = 403) (hlm : conn.lastModifiedVersion = some vs)
    (hpi : pyInt vs = some latest)
    (hne : ¬ (readCachedVersionT fs (markerName fn)).1 = latest)
    (hfo : follow_and_extract net fuel url = (.error e, t2)) :
    download_and_write_bib net fuel fs url fn =
      (fs,
       t ++ (readCachedVersionT fs (markerName fn)).2 ++
         [.logInfo ("online version " ++ strInt latest ++ " is different from cache " ++
           strInt (readCachedVersionT fs (markerName fn)).1 ++ ". Fetching data...")] ++ t2,
       .error e) := by
  unfold download_and_write_bib
  rw [hf]
  dsimp only
  rw [if_neg h403, hlm]
  dsimp only
  rw [hpi]
  dsimp only
  rw [if_neg hne, hfo]

theorem download_full (net : Net) (fuel : Nat) (fs : Files) (url fn : String)
    (conn : Response) (t : Trace) (vs : String) (latest : Int) (body : String) (t2 : Trace)
    (hf : fetch_url net url = (.ok conn, t))
    (h403 : ¬ conn.status_code = 403) (hlm : conn.lastModifiedVersion = some vs)
    (hpi : pyInt vs = some latest)
    (hne : ¬ (readCachedVersionT fs (markerName fn)).1 = latest)
    (hfo : follow_and_extract net fuel url = (.ok body, t2)) :
    download_and_write_bib net fuel fs url fn =
      (writeFileS (writeFileS fs (contentName fn) body) (markerName fn) (strInt latest),
       t ++ (readCachedVersionT fs (markerName fn)).2 ++
         [.logInfo ("online version " ++ strInt latest ++ " is different from cache " ++
           strInt (readCachedVersionT fs (markerName fn)).1 ++ ". Fetching data...")] ++ t2 ++
         [.fileWrite (contentName fn) body,
          .logInfo (fn ++ " updated"),
          .fileWrite (markerName fn) (strInt latest),
          .logInfo ("last-modified-version updated to " ++ strInt latest)],
       .ok ()) := by
  unfold download_and_write_bib
  rw [hf]
  dsimp only
  rw [if_neg h403, hlm]
  dsimp only
  rw [hpi]
  dsimp only
  rw [if_neg hne, hfo]

theorem findPage_append_not_mem (u : String) :
    ∀ (pre l : List Page), u ∉ pre.map Page.url → findPage (pre ++ l) u = findPage l u := by
  intro pre
  induction pre with
  | nil => intro l _; rfl
  | cons q pre' ih =>
    intro l hu
    have hq : q.url ≠ u := by
      intro he
      exact hu (by rw [List.map_cons]; exact he ▸ List.mem_cons_self _ _)
    rw [List.cons_append, findPage, if_neg hq]
    exact ih l (fun hm => hu (by rw [List.map_cons]; exact List.mem_cons_of_mem _ hm))

theorem chainOK_of_nodup (pages : List Page) (hnd : (pages.map Page.url).Nodup) :
    ∀ (post pre : List Page), pages = pre ++ post → ChainOK pages post := by
  intro post
  induction post with
  | nil => intro pre _; trivial
  | cons p post' ih =>
    intro pre hsplit
    constructor
    · have hnotin : p.url ∉ pre.map Page.url := by
        intro hmem
        rw [hsplit, List.map_append] at hnd
        rcases List.nodup_append.1 hnd with ⟨-, -, hdisj⟩
        exact hdisj hmem (by rw [List.map_cons]; exact List.mem_cons_self _ _)
      rw [hsplit, findPage_append_not_mem p.url pre (p :: post') hnotin, findPage, if_pos rfl]
    · exact ih (pre ++ [p]) (by rw [hsplit, List.append_assoc]; rfl)

theorem chainNet_attempt (pages : List Page) (v : String) (u : String) (p : Page)
    (nxt : Option String) (h : findPage pages u = some (p, nxt)) (k : Nat) :
    attemptOutcome (chainNet pages v) u k = .ok ⟨200, some v, nxt, p.body⟩ := by
  unfold attemptOutcome chainNet
  rw [h]
  rfl

theorem chainNet_fetch (pages : List Page) (v : String) (u : String) (p : Page)
    (nxt : Option String) (h : findPage pages u = some (p, nxt)) :
    fetch_url (chainNet pages v) u =
      (.ok ⟨200, some v, nxt, p.body⟩, attemptTrace (chainNet pages v) u 0) :=
  fetch_url_case0 _ _ _ (chainNet_attempt pages v u p nxt h 0)

theorem string_append_empty (s : String) : s ++ "" = s := by
  cases s with
  | mk l =>
    show String.mk (l ++ []) = String.mk l
    rw [List.append_nil]

theorem follow_chain (pages : List Page) (v : String) :
    ∀ (suffix : List Page) (p : Page) (fuel : Nat),
      ChainOK pages (p :: suffix) →
      suffix.length + 1 ≤ fuel →
      ∃ t, follow_and_extract (chainNet pages v) fuel p.url =
        (.ok (p.body ++ concatBodies suffix), t) := by
  intro suffix
  induction suffix with
  | nil =>
    intro p fuel hok hfuel
    rcases hok with ⟨hfind, -⟩
    cases fuel with
    | zero => omega
    | succ f =>
      refine ⟨attemptTrace (chainNet pages v) p.url 0, ?_⟩
      unfold follow_and_extract
      rw [chainNet_fetch pages v p.url p none (by simpa using hfind)]
      dsimp only
      rw [concatBodies, string_append_empty]
  | cons q suffix' ih =>
    intro p fuel hok hfuel
    rcases hok with ⟨hfind, hok'⟩
    cases fuel with
    | zero => omega
    | succ f =>
      have hnext : (List.head? (q :: suffix')).map Page.url = some q.url := rfl
      rcases ih q f hok' (by simpa using hfuel) with ⟨t2, ht2⟩
      refine ⟨attemptTrace (chainNet pages v) p.url 0 ++ t2, ?_⟩
      unfold follow_and_extract
      rw [chainNet_fetch pages v p.url p (some q.url) (by rw [hfind, hnext])]
      dsimp only
      rw [ht2]
      rfl

/-! ## Claims -/

theorem countGets_fetch3 (net : Net) (url : String) :
    countGets (attemptTrace net url 0 ++ (attemptTrace net url 1 ++ (attemptTrace net url 2 ++ []))) = 3 := by
  rw [countGets_append, countGets_append, countGets_append,
    countGets_attemptTrace, countGets_attemptTrace, countGets_attemptTrace]
  rfl

/-- C6: for every URL, the fetcher makes at most 3 GET attempts; it raises
`FetchError` only after all 3 attempts failed (and then it made exactly 3
GETs); and a success within the 3 attempts returns that full response. -/
theorem claim_C6_fetch_retry (net : Net) (url : String) :
    countGets (fetch_url net url).2 ≤ 3 ∧
    ((fetch_url net url).1 = .httpError →
      countGets (fetch_url net url).2 = 3 ∧
      ∀ k, k < 3 → attemptOutcome net url k = .httpError) ∧
    (∀ (r : Response) (k : Nat), k < 3 →
      (∀ j, j < k → attemptOutcome net url j = .httpError) →
      attemptOutcome net url k = .ok r →
      (fetch_url net url).1 = .ok r) := by
  rcases h0 : attemptOutcome net url 0 with r0 | _
  · have hf := fetch_url_case0 net url r0 h0
    refine ⟨?_, ?_, ?_⟩
    · rw [hf, countGets_attemptTrace]
      omega
    · intro h
      rw [hf] at h
      simp at h
    · intro r k hk hprev hok
      rcases k with _ | k
      · rw [h0] at hok
        cases hok
        rw [hf]
      · have hc := hprev 0 (by omega)
        rw [h0] at hc
        cases hc
  · rcases h1 : attemptOutcome net url 1 with r1 | _
    · have hf := fetch_url_case1 net url r1 h0 h1
      refine ⟨?_, ?_, ?_⟩
      · rw [hf]
        show countGets (attemptTrace net url 0 ++ attemptTrace net url 1) ≤ 3
        rw [countGets_append, countGets_attemptTrace, countGets_attemptTrace]
        omega
      · intro h
        rw [hf] at h
        simp at h
      · intro r k hk hprev hok
        rcases k with _ | k
        · rw [h0] at hok
          cases hok
        · rcases k with _ | k
          · rw [h1] at hok
            cases hok
            rw [hf]
          · have hc := hprev 1 (by omega)
            rw [h1] at hc
            cases hc
    · rcases h2 : attemptOutcome net url 2 with r2 | _
      · have hf := fetch_url_case2 net url r2 h0 h1 h2
        refine ⟨?_, ?_, ?_⟩
        · rw [hf]
          show countGets (attemptTrace net url 0 ++ (attemptTrace net url 1 ++ attemptTrace net url 2)) ≤ 3
          rw [countGets_append, countGets_append,
            countGets_attemptTrace, countGets_attemptTrace, countGets_attemptTrace]
        · intro h
          rw [hf] at h
          simp at h
        · intro r k hk hprev hok
          rcases k with _ | k
          · rw [h0] at hok
            cases hok
          · rcases k with _ | k
            · rw [h1] at hok
              cases hok
            · rcases k with _ | k
              · rw [h2] at hok
                cases hok
                rw [hf]
              · omega
      · have hf := fetch_url_case3 net url h0 h1 h2
        refine ⟨?_, ?_, ?_⟩
        · rw [hf]
          show countGets (attemptTrace net url 0 ++ (attemptTrace net url 1 ++ (attemptTrace net url 2 ++ []))) ≤ 3
          rw [countGets_fetch3]
        · intro h
          refine ⟨?_, ?_⟩
          · rw [hf]
            exact countGets_fetch3 net url
          · intro k hk
            rcases k with _ | k
            · exact h0
            · rcases k with _ | k
              · exact h1
              · rcases k with _ | k
                · exact h2
                · omega
        · intro r k hk hprev hok
          rcases k with _ | k
          · rw [h0] at hok
            cases hok
          · rcases k with _ | k
            · rw [h1] at hok
              cases hok
            · rcases k with _ | k
              · rw [h2] at hok
                cases hok
              · omega

/-- Witness for C6: on a remote failing twice then succeeding, the fetcher
returns the third attempt's response. -/
theorem claim_C6_fetch_retry_witness :
    (fetch_url netFlaky "u").1 = .ok ⟨200, some "5", none, "ok"⟩ :=
  (claim_C6_fetch_retry netFlaky "u").2.2 ⟨200, some "5", none, "ok"⟩ 2
    (by decide) (by decide) (by decide)

theorem lookup_writeFileS_self (fs : Files) (m v : String) :
    (writeFileS fs m v).lookup m = some v := by
  simp [writeFileS, List.lookup]

theorem readCached_writeMarker (fs : Files) (fn : String) (v : Int) :
    (readCachedVersionT (writeFileS fs (markerName fn) (strInt v)) (markerName fn)).1 = v := by
  unfold readCachedVersionT
  rw [lookup_writeFileS_self]
  dsimp only
  rw [firstLine_strInt, pyInt_strInt]

theorem readCachedVersionT_zero (fs : Files) (m : String)
    (h : fs.lookup m = none ∨ ∃ s, fs.lookup m = some s ∧ pyInt (firstLine s) = none) :
    (readCachedVersionT fs m).1 = 0 := by
  rcases h with h | ⟨s, h1, h2⟩
  · simp [readCachedVersionT, h]
  · simp [readCachedVersionT, h1, h2]

/-- C10: writing `n` with the marker-write step (lines 65–68, `write(str(n))`)
and then performing the version-cache read (lines 36–43) for the same output
name yields cached version `n`: the marker round-trips exactly. -/
theorem claim_C10_marker_roundtrip (n : Int) (fs : Files) (fn : String) :
    (readCachedVersionT (writeFileS fs (markerName fn) (strInt n)) (markerName fn)).1 = n :=
  readCached_writeMarker fs fn n

/-- C4: when the cached marker equals the probed latest marker, the sync is a
no-op: files untouched, normal return, and no GET beyond the probe's own. -/
theorem claim_C4_fast_path (net : Net) (fuel : Nat) (fs : Files) (url fn : String)
    (conn : Response) (t : Trace) (vs : String) (latest : Int)
    (hf : fetch_url net url = (.ok conn, t))
    (hlm : conn.lastModifiedVersion = some vs)
    (hpi : pyInt vs = some latest)
    (heq : (readCachedVersionT fs (markerName fn)).1 = latest) :
    (download_and_write_bib net fuel fs url fn).1 = fs ∧
    (download_and_write_bib net fuel fs url fn).2.2 = .ok () ∧
    countGets (download_and_write_bib net fuel fs url fn).2.1 =
      countGets (fetch_url net url).2 := by
  have h403 := fetch_url_ok_not_403 net url conn t hf
  have hd := download_up_to_date net fuel fs url fn conn t vs latest hf h403 hlm hpi heq
  refine ⟨by rw [hd], by rw [hd], ?_⟩
  rw [hd, hf]
  show countGets (t ++ (readCachedVersionT fs (markerName fn)).2 ++ _) = countGets t
  rw [countGets_append, countGets_append, readCachedVersionT_no_get]
  simp [countGets]

/-- Witness for C4: cached marker 12, remote version 12 — one probe GET,
no writes, clean return. -/
theorem claim_C4_fast_path_witness :
    (download_and_write_bib (netV "12" "body") 1 fs12 "u" "zotero.bib").1 = fs12 ∧
    (download_and_write_bib (netV "12" "body") 1 fs12 "u" "zotero.bib").2.2 = .ok () ∧
    countGets (download_and_write_bib (netV "12" "body") 1 fs12 "u" "zotero.bib").2.1 =
      countGets (fetch_url (netV "12" "body") "u").2 :=
  claim_C4_fast_path (netV "12" "body") 1 fs12 "u" "zotero.bib"
    ⟨200, some "12", none, "body"⟩ (attemptTrace (netV "12" "body") "u" 0)
    "12" 12 rfl rfl (by decide) (by decide)

/-- C5: a missing or unparseable marker file reads as version 0, and since
the remote's version is nonzero the comparison fails and the full paginated
fetch is performed. -/
theorem claim_C5_corrupt_cache (net : Net) (fuel : Nat) (fs : Files) (url fn : String)
    (conn : Response) (t : Trace) (vs : String) (latest : Int)
    (hf : fetch_url net url = (.ok conn, t))
    (hlm : conn.lastModifiedVersion = some vs)
    (hpi : pyInt vs = some latest)
    (hlatest : latest ≠ 0)
    (hcache : fs.lookup (markerName fn) = none ∨
      ∃ s, fs.lookup (markerName fn) = some s ∧ pyInt (firstLine s) = none) :
    (readCachedVersionT fs (markerName fn)).1 = 0 ∧
    ∃ tail, (download_and_write_bib net fuel fs url fn).2.1 =
      t ++ (readCachedVersionT fs (markerName fn)).2 ++
        [.logInfo ("online version " ++ strInt latest ++ " is different from cache " ++
          strInt (readCachedVersionT fs (markerName fn)).1 ++ ". Fetching data...")] ++
        (follow_and_extract net fuel url).2 ++ tail := by
  have h403 := fetch_url_ok_not_403 net url conn t hf
  have hzero := readCachedVersionT_zero fs (markerName fn) hcache
  have hne : ¬ (readCachedVersionT fs (markerName fn)).1 = latest := by
    rw [hzero]
    exact fun h => hlatest h.symm
  refine ⟨hzero, ?_⟩
  rcases hfo : follow_and_extract net fuel url with ⟨o2, t2⟩
  cases o2 with
  | error e =>
    have hd := download_follow_err net fuel fs url fn conn t vs latest e t2 hf h403 hlm hpi hne hfo
    refine ⟨[], ?_⟩
    rw [hd, List.append_nil]
  | ok body =>
    have hd := download_full net fuel fs url fn conn t vs latest body t2 hf h403 hlm hpi hne hfo
    refine ⟨[.fileWrite (contentName fn) body,
             .logInfo (fn ++ " updated"),
             .fileWrite (markerName fn) (strInt latest),
             .logInfo ("last-modified-version updated to " ++ strInt latest)], ?_⟩
    rw [hd]

/-- Witness for C5: remote version 5 and no cache file — the cached version
reads 0 and the pagination trace occurs in the run's trace. -/
theorem claim_C5_corrupt_cache_witness :
    (readCachedVersionT ([] : Files) (markerName "zotero.bib")).1 = 0 ∧
    ∃ tail, (download_and_write_bib (netV "5" "body") 1 [] "u" "zotero.bib").2.1 =
      attemptTrace (netV "5" "body") "u" 0 ++
        (readCachedVersionT ([] : Files) (markerName "zotero.bib")).2 ++
        [.logInfo ("online version " ++ strInt 5 ++ " is different from cache " ++
          strInt (readCachedVersionT ([] : Files) (markerName "zotero.bib")).1 ++
          ". Fetching data...")] ++
        (follow_and_extract (netV "5" "body") 1 "u").2 ++ tail :=
  claim_C5_corrupt_cache (netV "5" "body") 1 [] "u" "zotero.bib"
    ⟨200, some "5", none, "body"⟩ (attemptTrace (netV "5" "body") "u" 0)
    "5" 5 rfl rfl (by decide) (by decide) (Or.inl rfl)

/-- C9: if the probe's headers lack `last-modified-version`, the sync aborts
with the uncaught `int(None)` `TypeError` after the cache read and before any
file write: the files are returned unchanged and the trace ends with the
cache-read events. -/
theorem claim_C9_missing_header (net : Net) (fuel : Nat) (fs : Files) (url fn : String)
    (conn : Response) (t : Trace)
    (hf : fetch_url net url = (.ok conn, t))
    (hlm : conn.lastModifiedVersion = none) :
    download_and_write_bib net fuel fs url fn =
      (fs, t ++ (readCachedVersionT fs (markerName fn)).2, .error .typeError) ∧
    ∀ e ∈ (download_and_write_bib net fuel fs url fn).2.1, isWriteEv e = false := by
  have h403 := fetch_url_ok_not_403 net url conn t hf
  have hd := download_no_header net fuel fs url fn conn t hf h403 hlm
  refine ⟨hd, ?_⟩
  rw [hd]
  show ∀ e ∈ t ++ (readCachedVersionT fs (markerName fn)).2, isWriteEv e = false
  intro e he
  rcases List.mem_append.1 he with he | he
  · have := fetch_url_no_write net url
    rw [hf] at this
    exact this e he
  · exact readCachedVersionT_no_write fs (markerName fn) e he

/-- Witness for C9: a header-less 200 response leaves the files untouched and
raises the `TypeError`. -/
theorem claim_C9_missing_header_witness :
    download_and_write_bib netNoHeader 1 fs7 "u" "zotero.bib" =
      (fs7, attemptTrace netNoHeader "u" 0 ++
        (readCachedVersionT fs7 (markerName "zotero.bib")).2, .error .typeError) ∧
    ∀ e ∈ (download_and_write_bib netNoHeader 1 fs7 "u" "zotero.bib").2.1,
      isWriteEv e = false :=
  claim_C9_missing_header netNoHeader 1 fs7 "u" "zotero.bib"
    ⟨200, none, none, "b"⟩ (attemptTrace netNoHeader "u" 0) rfl rfl

/-- C3: on a successful full sync over a linked chain of pages, the persisted
content file equals the concatenation of all page bodies in link order with
no separator, and the persisted marker equals the just-fetched latest
version. -/
theorem claim_C3_full_sync (pages : List Page) (p0 : Page) (rest : List Page)
    (v : Int) (fs : Files) (fn : String) (fuel : Nat)
    (hp : pages = p0 :: rest)
    (hnd : (pages.map Page.url).Nodup)
    (hfuel : pages.length ≤ fuel)
    (hne : ¬ (readCachedVersionT fs (markerName fn)).1 = v) :
    (download_and_write_bib (chainNet pages (strInt v)) fuel fs p0.url fn).2.2 = .ok () ∧
    ((download_and_write_bib (chainNet pages (strInt v)) fuel fs p0.url fn).1).lookup
      (contentName fn) = some (concatBodies pages) ∧
    ((download_and_write_bib (chainNet pages (strInt v)) fuel fs p0.url fn).1).lookup
      (markerName fn) = some (strInt v) := by
  subst hp
  have hok : ChainOK (p0 :: rest) (p0 :: rest) :=
    chainOK_of_nodup (p0 :: rest) hnd (p0 :: rest) [] rfl
  have hfind : findPage (p0 :: rest) p0.url = some (p0, rest.head?.map Page.url) := hok.1
  have hfetch := chainNet_fetch (p0 :: rest) (strInt v) p0.url p0 (rest.head?.map Page.url) hfind
  rcases follow_chain (p0 :: rest) (strInt v) rest p0 fuel hok (by simpa using hfuel) with ⟨t2, ht2⟩
  have hd := download_full (chainNet (p0 :: rest) (strInt v)) fuel fs p0.url fn
    ⟨200, some (strInt v), rest.head?.map Page.url, p0.body⟩
    (attemptTrace (chainNet (p0 :: rest) (strInt v)) p0.url 0)
    (strInt v) v (p0.body ++ concatBodies rest) t2
    hfetch (by simp) rfl (pyInt_strInt v) hne ht2
  refine ⟨by rw [hd], ?_, ?_⟩
  · rw [hd]
    show (writeFileS (writeFileS fs (contentName fn) (p0.body ++ concatBodies rest))
      (markerName fn) (strInt v)).lookup (contentName fn) = some (concatBodies (p0 :: rest))
    simp [writeFileS, List.lookup, contentName_beq_markerName fn]
    rfl
  · rw [hd]
    show (writeFileS (writeFileS fs (contentName fn) (p0.body ++ concatBodies rest))
      (markerName fn) (strInt v)).lookup (markerName fn) = some (strInt v)
    simp [writeFileS, List.lookup]

/-- Witness for C3: the spec's example — pages `A`, `B`, `C`, cached marker 7,
remote version 9 — ends with content `ABC` and marker `9`. -/
theorem claim_C3_full_sync_witness :
    (download_and_write_bib (chainNet pages3 (strInt 9)) 3 fs7 "u1" "zotero.bib").2.2 = .ok () ∧
    ((download_and_write_bib (chainNet pages3 (strInt 9)) 3 fs7 "u1" "zotero.bib").1).lookup
      (contentName "zotero.bib") = some "ABC" ∧
    ((download_and_write_bib (chainNet pages3 (strInt 9)) 3 fs7 "u1" "zotero.bib").1).lookup
      (markerName "zotero.bib") = some "9" := by
  have h := claim_C3_full_sync pages3 ⟨"u1", "A"⟩ [⟨"u2", "B"⟩, ⟨"u3", "C"⟩] 9 fs7
    "zotero.bib" 3 rfl (by decide) (by decide) (by decide)
  exact ⟨h.1, h.2.1.trans (by rfl), h.2.2.trans (by rfl)⟩

/-- C7: if a resource's sync completes normally, running it again against the
unchanged remote leaves the files exactly as they were, completes normally,
and performs no GET beyond the probe (zero paginated fetches). -/
theorem claim_C7_second_run_noop (net : Net) (fuel : Nat) (fs : Files) (url fn : String)
    (fs1 : Files) (t1 : Trace)
    (hrun : download_and_write_bib net fuel fs url fn = (fs1, t1, .ok ())) :
    (download_and_write_bib net fuel fs1 url fn).1 = fs1 ∧
    (download_and_write_bib net fuel fs1 url fn).2.2 = .ok () ∧
    countGets (download_and_write_bib net fuel fs1 url fn).2.1 =
      countGets (fetch_url net url).2 := by
  rcases hf : fetch_url net url with ⟨o, t⟩
  have htg : countGets (fetch_url net url).2 = countGets t := by rw [hf]
  cases o with
  | httpError =>
    rw [download_fetch_err net fuel fs url fn t hf] at hrun
    simp at hrun
  | ok conn =>
    by_cases h403 : conn.status_code = 403
    · rw [download_403 net fuel fs url fn conn t hf h403] at hrun
      simp only [Prod.mk.injEq] at hrun
      obtain ⟨hfs, -, -⟩ := hrun
      subst hfs
      have hd2 := download_403 net fuel fs url fn conn t hf h403
      refine ⟨by rw [hd2], by rw [hd2], ?_⟩
      rw [hd2]
      show countGets (t ++ [Ev.logError "Access to library not granted."]) = countGets t
      rw [countGets_append]
      simp [countGets]
    · cases hlm : conn.lastModifiedVersion with
      | none =>
        rw [download_no_header net fuel fs url fn conn t hf h403 hlm] at hrun
        simp at hrun
      | some vs =>
        cases hpi : pyInt vs with
        | none =>
          rw [download_bad_header net fuel fs url fn conn t vs hf h403 hlm hpi] at hrun
          simp at hrun
        | some latest =>
          by_cases heq : (readCachedVersionT fs (markerName fn)).1 = latest
          · rw [download_up_to_date net fuel fs url fn conn t vs latest hf h403 hlm hpi heq] at hrun
            simp only [Prod.mk.injEq] at hrun
            obtain ⟨hfs, -, -⟩ := hrun
            subst hfs
            have hd2 := download_up_to_date net fuel fs url fn conn t vs latest hf h403 hlm hpi heq
            refine ⟨by rw [hd2], by rw [hd2], ?_⟩
            rw [hd2]
            show countGets (t ++ (readCachedVersionT fs (markerName fn)).2 ++ _) = countGets t
            rw [countGets_append, countGets_append, readCachedVersionT_no_get]
            simp [countGets]
          · rcases hfo : follow_and_extract net fuel url with ⟨o2, t2⟩
            cases o2 with
            | error e =>
              rw [download_follow_err net fuel fs url fn conn t vs latest e t2
                hf h403 hlm hpi heq hfo] at hrun
              simp at hrun
            | ok body =>
              rw [download_full net fuel fs url fn conn t vs latest body t2
                hf h403 hlm hpi heq hfo] at hrun
              simp only [Prod.mk.injEq] at hrun
              obtain ⟨hfs, -, -⟩ := hrun
              subst hfs
              have hcached :
                  (readCachedVersionT (writeFileS (writeFileS fs (contentName fn) body)
                    (markerName fn) (strInt latest)) (markerName fn)).1 = latest :=
                readCached_writeMarker (writeFileS fs (contentName fn) body) fn latest
              have hd2 := download_up_to_date net fuel
                (writeFileS (writeFileS fs (contentName fn) body) (markerName fn) (strInt latest))
                url fn conn t vs latest hf h403 hlm hpi hcached
              refine ⟨by rw [hd2], by rw [hd2], ?_⟩
              rw [hd2]
              show countGets (t ++ _ ++ _) = countGets t
              rw [countGets_append, countGets_append, readCachedVersionT_no_get]
              simp [countGets]

/-- Witness for C7: after one full sync of a one-page resource at version 12,
the second run returns the same files and performs only the single probe GET. -/
theorem claim_C7_second_run_noop_witness :
    (download_and_write_bib (netV "12" "body") 1
      (download_and_write_bib (netV "12" "body") 1 [] "u" "zotero.bib").1 "u" "zotero.bib").1 =
      (download_and_write_bib (netV "12" "body") 1 [] "u" "zotero.bib").1 ∧
    (download_and_write_bib (netV "12" "body") 1
      (download_and_write_bib (netV "12" "body") 1 [] "u" "zotero.bib").1 "u" "zotero.bib").2.2 =
      .ok () ∧
    countGets (download_and_write_bib (netV "12" "body") 1
      (download_and_write_bib (netV "12" "body") 1 [] "u" "zotero.bib").1 "u" "zotero.bib").2.1 =
      countGets (fetch_url (netV "12" "body") "u").2 :=
  claim_C7_second_run_noop (netV "12" "body") 1 [] "u" "zotero.bib"
    (download_and_write_bib (netV "12" "body") 1 [] "u" "zotero.bib").1
    (download_and_write_bib (netV "12" "body") 1 [] "u" "zotero.bib").2.1
    rfl

/-! ## Write-ordering analysis for C2 -/

theorem writesTo_content_self (c : String) (b : String) :
    writesTo c (.fileWrite c b) = true := by
  simp [writesTo]

theorem take_shape_order (c m : String) (hmc : m ≠ c) (b v : String) (l1 l2 : Ev)
    (hl1 : isWriteEv l1 = false) (hl2 : isWriteEv l2 = false) :
    ∀ (t0 : Trace), (∀ e ∈ t0, isWriteEv e = false) → ∀ n : Nat,
      (∃ e ∈ (t0 ++ [.fileWrite c b, l1, .fileWrite m v, l2]).take n, writesTo m e = true) →
      ∃ e ∈ (t0 ++ [.fileWrite c b, l1, .fileWrite m v, l2]).take n, writesTo c e = true := by
  intro t0
  induction t0 with
  | nil =>
    intro _ n hex
    have hcm : (c == m) = false := beq_eq_false_iff_ne.2 (fun h => hmc h.symm)
    rcases n with _ | _ | _ | _ | n
    · simp at hex
    · rcases hex with ⟨e, he, hw⟩
      simp at he
      subst he
      rw [writesTo, hcm] at hw
      cases hw
    · rcases hex with ⟨e, he, hw⟩
      simp at he
      rcases he with he | he
      · subst he
        rw [writesTo, hcm] at hw
        cases hw
      · subst he
        rw [writesTo_eq_false_of_not_write hl1 m] at hw
        cases hw
    · refine ⟨.fileWrite c b, ?_, writesTo_content_self c b⟩
      simp
    · refine ⟨.fileWrite c b, ?_, writesTo_content_self c b⟩
      simp [List.take_succ_cons]
  | cons e0 t0' ih =>
    intro h0 n hex
    rcases n with _ | n
    · simp at hex
    · rw [List.cons_append, List.take_succ_cons] at hex
      rcases hex with ⟨e, he, hw⟩
      rcases List.mem_cons.1 he with he | he
      · subst he
        rw [writesTo_eq_false_of_not_write (h0 e (List.mem_cons_self _ _)) m] at hw
        cases hw
      · rcases ih (fun e' he' => h0 e' (List.mem_cons_of_mem _ he')) n ⟨e, he, hw⟩ with
          ⟨e', he'', hw'⟩
        refine ⟨e', ?_, hw'⟩
        rw [List.cons_append, List.take_succ_cons]
        exact List.mem_cons_of_mem _ he''

/-- Every run's trace either contains no file write at all, or is a
write-free prefix followed by exactly the content write, its log line, the
marker write, and its log line — in that order. -/
theorem download_shape (net : Net) (fuel : Nat) (fs : Files) (url fn : String) :
    (∀ e ∈ (download_and_write_bib net fuel fs url fn).2.1, isWriteEv e = false) ∨
    ∃ t0 body v, (∀ e ∈ t0, isWriteEv e = false) ∧
      (download_and_write_bib net fuel fs url fn).2.1 =
        t0 ++ [.fileWrite (contentName fn) body, .logInfo (fn ++ " updated"),
               .fileWrite (markerName fn) (strInt v),
               .logInfo ("last-modified-version updated to " ++ strInt v)] := by
  rcases hf : fetch_url net url with ⟨o, t⟩
  have htf : ∀ e ∈ t, isWriteEv e = false := by
    have h := fetch_url_no_write net url
    rw [hf] at h
    exact h
  have hrt : ∀ e ∈ (readCachedVersionT fs (markerName fn)).2, isWriteEv e = false :=
    readCachedVersionT_no_write fs (markerName fn)
  cases o with
  | httpError =>
    left
    rw [download_fetch_err net fuel fs url fn t hf]
    exact htf
  | ok conn =>
    by_cases h403 : conn.status_code = 403
    · left
      rw [download_403 net fuel fs url fn conn t hf h403]
      show ∀ e ∈ t ++ [Ev.logError "Access to library not granted."], isWriteEv e = false
      intro e he
      rcases List.mem_append.1 he with he | he
      · exact htf e he
      · simp at he
        subst he
        rfl
    · cases hlm : conn.lastModifiedVersion with
      | none =>
        left
        rw [download_no_header net fuel fs url fn conn t hf h403 hlm]
        show ∀ e ∈ t ++ (readCachedVersionT fs (markerName fn)).2, isWriteEv e = false
        intro e he
        rcases List.mem_append.1 he with he | he
        · exact htf e he
        · exact hrt e he
      | some vs =>
        cases hpi : pyInt vs with
        | none =>
          left
          rw [download_bad_header net fuel fs url fn conn t vs hf h403 hlm hpi]
          show ∀ e ∈ t ++ (readCachedVersionT fs (markerName fn)).2, isWriteEv e = false
          intro e he
          rcases List.mem_append.1 he with he | he
          · exact htf e he
          · exact hrt e he
        | some latest =>
          by_cases heq : (readCachedVersionT fs (markerName fn)).1 = latest
          · left
            rw [download_up_to_date net fuel fs url fn conn t vs latest hf h403 hlm hpi heq]
            show ∀ e ∈ t ++ (readCachedVersionT fs (markerName fn)).2 ++ [Ev.logInfo _],
              isWriteEv e = false
            intro e he
            rcases List.mem_append.1 he with he | he
            · rcases List.mem_append.1 he with he | he
              · exact htf e he
              · exact hrt e he
            · simp at he
              subst he
              rfl
          · rcases hfo : follow_and_extract net fuel url with ⟨o2, t2⟩
            have ht2 : ∀ e ∈ t2, isWriteEv e = false := by
              have h := follow_no_write net fuel url
              rw [hfo] at h
              exact h
            cases o2 with
            | error e =>
              left
              rw [download_follow_err net fuel fs url fn conn t vs latest e t2
                hf h403 hlm hpi heq hfo]
              show ∀ e ∈ t ++ (readCachedVersionT fs (markerName fn)).2 ++ [Ev.logInfo _] ++ t2,
                isWriteEv e = false
              intro e' he'
              rcases List.mem_append.1 he' with he' | he'
              · rcases List.mem_append.1 he' with he' | he'
                · rcases List.mem_append.1 he' with he' | he'
                  · exact htf e' he'
                  · exact hrt e' he'
                · simp at he'
                  subst he'
                  rfl
              · exact ht2 e' he'
            | ok body =>
              right
              refine ⟨t ++ (readCachedVersionT fs (markerName fn)).2 ++
                [Ev.logInfo ("online version " ++ strInt latest ++ " is different from cache " ++
                  strInt (readCachedVersionT fs (markerName fn)).1 ++ ". Fetching data...")] ++ t2,
                body, latest, ?_, ?_⟩
              · intro e he
                rcases List.mem_append.1 he with he | he
                · rcases List.mem_append.1 he with he | he
                  · rcases List.mem_append.1 he with he | he
                    · exact htf e he
                    · exact hrt e he
                  · simp at he
                    subst he
                    rfl
                · exact ht2 e he
              · rw [download_full net fuel fs url fn conn t vs latest body t2
                  hf h403 hlm hpi heq hfo]

/-- C2: in any run, (a) every trace prefix that contains the marker-file
write also contains the content-file write — the content write strictly
precedes the marker write — and (b) replaying the writes of any prefix
without the marker write leaves the marker file at its old value, so an
abort between the two writes leaves the cached marker stale. -/
theorem claim_C2_write_order (net : Net) (fuel : Nat) (fs : Files) (url fn : String) :
    ∀ n : Nat,
      ((∃ e ∈ (download_and_write_bib net fuel fs url fn).2.1.take n,
          writesTo (markerName fn) e = true) →
        ∃ e ∈ (download_and_write_bib net fuel fs url fn).2.1.take n,
          writesTo (contentName fn) e = true) ∧
      ((∀ e ∈ (download_and_write_bib net fuel fs url fn).2.1.take n,
          writesTo (markerName fn) e = false) →
        (applyWrites fs ((download_and_write_bib net fuel fs url fn).2.1.take n)).lookup
          (markerName fn) = fs.lookup (markerName fn)) := by
  intro n
  constructor
  · intro hex
    rcases download_shape net fuel fs url fn with hal | ⟨t0, body, v, ht0, htr⟩
    · rcases hex with ⟨e, he, hw⟩
      have hmem : e ∈ (download_and_write_bib net fuel fs url fn).2.1 :=
        List.take_subset n _ he
      rw [writesTo_eq_false_of_not_write (hal e hmem) (markerName fn)] at hw
      cases hw
    · rw [htr] at hex ⊢
      exact take_shape_order (contentName fn) (markerName fn)
        (markerName_ne_contentName fn) body (strInt v)
        (.logInfo (fn ++ " updated"))
        (.logInfo ("last-modified-version updated to " ++ strInt v))
        rfl rfl t0 ht0 n hex
  · intro hnone
    exact applyWrites_lookup (markerName fn) _ fs hnone

/-- Witness for C2: in a full one-page sync, replaying the first 8 events of
the 10-event trace (everything before the marker write) leaves the marker
file unwritten. -/
theorem claim_C2_write_order_witness :
    (applyWrites [] ((download_and_write_bib (netV "12" "body") 1 [] "u" "zotero.bib").2.1.take 8)).lookup
      (markerName "zotero.bib") = List.lookup (markerName "zotero.bib") ([] : Files) :=
  (claim_C2_write_order (netV "12" "body") 1 [] "u" "zotero.bib" 8).2 (by decide)

/-- C8: with `ZOTERO_USER_ID` or `ZOTERO_BEARER_TOKEN` unset, the run logs a
single error line and returns cleanly before any network call: no GET, no
file write, files unchanged. -/
theorem claim_C8_missing_credentials (parseJson : String → List (Option Nat))
    (net : Net) (fuel : Nat) (env : Env) (fs : Files)
    (h : env.zotero_user_id = none ∨ env.zotero_bearer_token = none) :
    (mainRun parseJson net fuel env fs).1 = fs ∧
    (∃ msg, (mainRun parseJson net fuel env fs).2.1 = [.logError msg]) ∧
    countGets (mainRun parseJson net fuel env fs).2.1 = 0 ∧
    (∀ e ∈ (mainRun parseJson net fuel env fs).2.1, isWriteEv e = false) ∧
    (mainRun parseJson net fuel env fs).2.2 = .ok () := by
  rcases env with ⟨uid, tok⟩
  rcases uid with _ | u
  · have E : mainRun parseJson net fuel ⟨none, tok⟩ fs =
        (fs, [.logError "ZOTERO_USER_ID not set in GitHub secrets"], .ok ()) := rfl
    refine ⟨by rw [E], ⟨"ZOTERO_USER_ID not set in GitHub secrets", by rw [E]⟩,
      by rw [E]; rfl, ?_, by rw [E]⟩
    rw [E]
    intro e he
    simp at he
    subst he
    rfl
  · rcases tok with _ | tk
    · have E : mainRun parseJson net fuel ⟨some u, none⟩ fs =
          (fs, [.logError "ZOTERO_BEARER_TOKEN not set in GitHub secrets"], .ok ()) := rfl
      refine ⟨by rw [E], ⟨"ZOTERO_BEARER_TOKEN not set in GitHub secrets", by rw [E]⟩,
        by rw [E]; rfl, ?_, by rw [E]⟩
      rw [E]
      intro e he
      simp at he
      subst he
      rfl
    · rcases h with h | h <;> simp at h

/-- Witness for C8: both variables unset — the run ends with one error log,
zero GETs, zero writes. -/
theorem claim_C8_missing_credentials_witness :
    (mainRun (fun _ => []) (netV "1" "b") 1 ⟨none, none⟩ []).1 = ([] : Files) ∧
    (∃ msg, (mainRun (fun _ => []) (netV "1" "b") 1 ⟨none, none⟩ []).2.1 = [.logError msg]) ∧
    countGets (mainRun (fun _ => []) (netV "1" "b") 1 ⟨none, none⟩ []).2.1 = 0 ∧
    (∀ e ∈ (mainRun (fun _ => []) (netV "1" "b") 1 ⟨none, none⟩ []).2.1, isWriteEv e = false) ∧
    (mainRun (fun _ => []) (netV "1" "b") 1 ⟨none, none⟩ []).2.2 = .ok () :=
  claim_C8_missing_credentials (fun _ => []) (netV "1" "b") 1 ⟨none, none⟩ [] (Or.inl rfl)

/-- C1 (code bug): on a resource whose probe always answers 403,
`raise_for_status` inside the retried `fetch_url` turns the 403 into an
`HTTPError` that is retried 3 times and then re-raised, so the per-resource
sync ends in an uncaught exception: the access-denied branch (lines 32–34)
never runs and nothing is logged, although — as the claim also says — no
content or marker file is written. In `main`'s group loop the exception
aborts the remaining resources: with two groups, only the first group's
3 GET attempts happen and the run ends in the error. -/
theorem claim_C1_403_code_bug_eval :
    download_and_write_bib net403 1 [] "u" "zotero.bib" =
      ([], [.get "u", .get "u", .get "u"], .error .fetchError) ∧
    Ev.logError "Access to library not granted." ∉
      (download_and_write_bib net403 1 [] "u" "zotero.bib").2.1 ∧
    (syncGroups net403 1 [] [] [some 1, some 2]).2.2 = .error .fetchError ∧
    countGets (syncGroups net403 1 [] [] [some 1, some 2]).2.1 = 3 := by
  refine ⟨rfl, by decide, rfl, ?_⟩
  decide
